import Mathlib

/-!
Verification development for the `twitter-account-location-in-username`
browser extension content script (`content.js`).

The script is single-threaded JavaScript with cooperative scheduling, so the
stateful parts are embedded as explicit state-passing functions and as
small-step transition systems whose steps correspond to the synchronous
segments between `await` suspension points of the source.  Machine time is
modelled as `Nat` milliseconds; JS `Map`s and plain objects are modelled as
association lists with unique keys (first binding wins on lookup).
-/

namespace TwitterLocation

/-! ### Location cache (`loadCache`, `saveCache`, `saveCacheEntry`, `getUserLocation`) -/

/-- Association-list lookup, modelling `Map.get` / JS object property access. -/
def getEntry {α : Type} (l : List (String × α)) (k : String) : Option α :=
  (l.find? (fun p => p.1 == k)).map (fun p => p.2)

/-- `locationCache.set`: overwrite the binding in place if the key is present,
otherwise append a new binding (JS `Map` insertion-order semantics). -/
def cacheSet (cache : List (String × Option String)) (k : String) (v : Option String) :
    List (String × Option String) :=
  if (cache.find? (fun p => p.1 == k)).isSome then
    cache.map (fun p => if p.1 == k then (k, v) else p)
  else cache ++ [(k, v)]

/-- `locationCache.delete`: remove the binding for `k`. -/
def cacheDelete (cache : List (String × Option String)) (k : String) :
    List (String × Option String) :=
  cache.eraseP (fun p => p.1 == k)

/-- `CACHE_EXPIRY_DAYS` from the source. -/
def CACHE_EXPIRY_DAYS : Nat := 30

/-- A persisted cache record `{location, expiry, cachedAt}` as written by `saveCache`. -/
structure CacheEntry where
  location : Option String
  expiry : Nat
  cachedAt : Nat
deriving DecidableEq

/-- `saveCache`: builds the object persisted under `twitter_location_cache`.
Every in-memory entry is written, with `expiry` and `cachedAt` computed once
from the time of the save (`now`). -/
def saveCache (cache : List (String × Option String)) (now : Nat) :
    List (String × CacheEntry) :=
  cache.map (fun p =>
    (p.1, { location := p.2
            expiry := now + CACHE_EXPIRY_DAYS * 24 * 60 * 60 * 1000
            cachedAt := now }))

/-- `loadCache`: rebuild the in-memory map from a persisted snapshot, keeping
only entries whose expiry lies in the future and whose location is not null.
(The source also checks truthiness of `data.expiry`, which is implied by
`data.expiry > now` over `Nat`.) -/
def loadCache (stored : List (String × CacheEntry)) (now : Nat) :
    List (String × Option String) :=
  stored.filterMap (fun p =>
    if now < p.2.expiry ∧ p.2.location ≠ none then some (p.1, p.2.location) else none)

/-- Result of `getUserLocation`: either a synchronous cache hit, or a request
was pushed onto `requestQueue` (followed by a `processRequestQueue` call). -/
inductive LookupResult
| cached (loc : String)
| requested
deriving DecidableEq

/-- `getUserLocation` (cache consultation part): a non-null cached value is
returned as is; a cached null is deleted and the lookup falls through to
enqueueing a fresh request; a miss enqueues a fresh request. -/
def getUserLocation (cache : List (String × Option String)) (screenName : String) :
    LookupResult × List (String × Option String) :=
  match getEntry cache screenName with
  | some (some loc) => (.cached loc, cache)
  | some none => (.requested, cacheDelete cache screenName)
  | none => (.requested, cache)

/-! ### Request queue / rate limiter (`processRequestQueue`)

`processRequestQueue` is an async function guarded by `isProcessingQueue`;
its `while` loop suspends at `await setTimeout(...)`.  We model the loop as a
phase (`idle`, `running`, `sleeping wakeAt`); every event of the transition
system corresponds to one synchronous segment of the source, stamped with the
current `Date.now()` value (times are nondecreasing along a trace). -/

/-- `MIN_REQUEST_INTERVAL` (ms). -/
def MIN_REQUEST_INTERVAL : Nat := 2000

/-- `MAX_CONCURRENT_REQUESTS`. -/
def MAX_CONCURRENT_REQUESTS : Nat := 2

/-- Dispatch-loop phase: `isProcessingQueue` is false exactly in `idle`;
`sleeping w` is the loop suspended in `await setTimeout` until time `w`. -/
inductive LoopPhase
| idle
| running
| sleeping (wakeAt : Nat)
deriving DecidableEq

/-- The process-wide queue state: `requestQueue` (handles of pending requests),
the loop phase, `lastRequestTime`, `activeRequests`, `rateLimitResetTime`
(seconds, 0 = inactive), the current time (ms), and the log of dispatch
times through the Page Bridge. -/
structure QState where
  queue : List String
  loop : LoopPhase
  lastRequestTime : Nat
  activeRequests : Nat
  rateLimitResetTime : Nat
  time : Nat
  dispatches : List Nat
deriving DecidableEq

/-- Initial queue state at page load. -/
def qInit : QState :=
  { queue := [], loop := .idle, lastRequestTime := 0, activeRequests := 0,
    rateLimitResetTime := 0, time := 0, dispatches := [] }

/-- A synchronous invocation of `processRequestQueue` up to the point where
`isProcessingQueue` is set: the early return when already processing or when
the queue is empty, then the rate-limit window check (which either defers by
scheduling a later call — a later `call` event — or clears an expired
window and proceeds). -/
def tryStart (s : QState) : QState :=
  if s.loop ≠ .idle ∨ s.queue = [] then s
  else if 0 < s.rateLimitResetTime then
    if s.time / 1000 < s.rateLimitResetTime then s
    else { s with rateLimitResetTime := 0, loop := .running }
  else { s with loop := .running }

/-- `requestQueue.shift()` followed by `activeRequests++`,
`lastRequestTime = Date.now()` and firing the request through the bridge
(recorded in `dispatches`); the loop then continues. -/
def dispatchHead (s : QState) : QState :=
  { s with queue := s.queue.tail, activeRequests := s.activeRequests + 1,
           lastRequestTime := s.time, dispatches := s.dispatches ++ [s.time],
           loop := .running }

/-- One evaluation of the `while` condition and, if it holds, the body up to
either the rate-limiting sleep or a dispatch. -/
def loopIter (s : QState) : QState :=
  if s.queue = [] ∨ MAX_CONCURRENT_REQUESTS ≤ s.activeRequests then
    { s with loop := .idle }
  else if s.time - s.lastRequestTime < MIN_REQUEST_INTERVAL then
    { s with loop := .sleeping (s.time + (MIN_REQUEST_INTERVAL - (s.time - s.lastRequestTime))) }
  else dispatchHead s

/-- Events of the queue transition system, each stamped with `Date.now()`:
a `getUserLocation` push plus its synchronous `processRequestQueue` call;
a timer-scheduled `processRequestQueue` call; a loop-condition re-evaluation;
the sleep timer firing (the body then dispatches without re-checking);
a request completing (`finally`: `activeRequests--`, scheduling a later
`call`); and the out-of-band `__rateLimitInfo` signal. -/
inductive QEvent
| enqueue (t : Nat) (h : String)
| call (t : Nat)
| iter (t : Nat)
| wake (t : Nat)
| complete (t : Nat)
| rateLimitSignal (t : Nat) (resetTime : Nat)

/-- One step of the queue system; `none` when the event is not enabled
(wrong phase, time running backwards, or no request in flight to complete). -/
def stepQ (s : QState) (e : QEvent) : Option QState :=
  match e with
  | .enqueue t h =>
      if s.time ≤ t then some (tryStart { s with time := t, queue := s.queue ++ [h] })
      else none
  | .call t =>
      if s.time ≤ t then some (tryStart { s with time := t }) else none
  | .iter t =>
      if s.time ≤ t ∧ s.loop = .running then some (loopIter { s with time := t }) else none
  | .wake t =>
      match s.loop with
      | .sleeping w =>
          if s.time ≤ t ∧ w ≤ t then some (dispatchHead { s with time := t }) else none
      | _ => none
  | .complete t =>
      if s.time ≤ t ∧ 0 < s.activeRequests then
        some { s with time := t, activeRequests := s.activeRequests - 1 }
      else none
  | .rateLimitSignal t r =>
      if s.time ≤ t then some { s with time := t, rateLimitResetTime := r } else none

/-- Run a list of events from a state. -/
def runQ (s : QState) : List QEvent → Option QState
  | [] => some s
  | e :: es =>
      match stepQ s e with
      | some s' => runQ s' es
      | none => none

/-! ### Page Bridge (`makeLocationRequest`) -/

/-- A `window` message event as seen by the content script's handler:
`event.source === window`, `event.data.type`, `event.data.screenName`,
`event.data.requestId` (modelled as `Nat`), `event.data.location`
(`none` = absent/null), `event.data.isRateLimited`, and the time (ms after
the request was posted) at which the event is delivered. -/
structure PageMsg where
  sourceIsWindow : Bool
  type : String
  screenName : String
  requestId : Nat
  location : Option String
  isRateLimited : Bool
  time : Nat
deriving DecidableEq

/-- JS `location || null`: the empty string and absence both collapse to null. -/
def orNull : Option String → Option String
  | some s => if s = "" then none else some s
  | none => none

/-- The handler's match condition for a correlated response. -/
def respondsTo (screenName : String) (requestId : Nat) (e : PageMsg) : Bool :=
  e.sourceIsWindow && e.type == "__locationResponse" &&
    e.screenName == screenName && e.requestId == requestId

/-- The first correlated response delivered before the 10-second timeout
removes the listener (events are listed in delivery order). -/
def firstResponse (screenName : String) (requestId : Nat) (events : List PageMsg) :
    Option PageMsg :=
  (events.filter (fun e => respondsTo screenName requestId e && e.time < 10000)).head?

/-- A call to one of the promise executor's continuations. -/
inductive Settle
| resolve (v : Option String)
| reject
deriving DecidableEq

/-- All `resolve`/`reject` calls made by `makeLocationRequest`'s executor for a
given delivery schedule: the handler resolves `location || null` on the first
correlated response, and the 10-second `setTimeout` (which is never cancelled)
always fires and calls `resolve(null)` last. -/
def settleCalls (screenName : String) (requestId : Nat) (events : List PageMsg) :
    List Settle :=
  (match firstResponse screenName requestId events with
   | some m => [Settle.resolve (orNull m.location)]
   | none => []) ++ [Settle.resolve none]

/-- The value a promise settles with is fixed by the first settle call. -/
def promiseSettle (screenName : String) (requestId : Nat) (events : List PageMsg) :
    Option Settle :=
  (settleCalls screenName requestId events).head?

/-- The `saveCacheEntry(screenName, location || null)` calls made by the
handler: exactly one for the first correlated response when it is not flagged
rate-limited, and none otherwise. -/
def cacheWrites (screenName : String) (requestId : Nat) (events : List PageMsg) :
    List (String × Option String) :=
  match firstResponse screenName requestId events with
  | some m => if m.isRateLimited then [] else [(screenName, orNull m.location)]
  | none => []

/-! ### DOM annotation (`addFlagToUsername`, `processUsernames`) -/

/-- Modelled from the spec: `getCountryFlag` is called by the annotator but its
definition is not under `src/`.  The spec fixes the scenario mapping
`'Paris, France'` to the France flag glyph, and that locations with no
mappable flag yield no glyph; locations outside the documented scenario are
modelled as unmapped. -/
def getCountryFlag : String → Option String
  | "Paris, France" => some "🇫🇷"
  | _ => none

/-- `processUsernames` eligibility: an element is (re-)processed only when its
`data-flag-added` attribute is absent, falsy, or equal to `'failed'`. -/
def scanEligible (st : Option String) : Bool :=
  match st with
  | none => true
  | some v => v == "" || v == "failed"

/-- Primitive observable actions of one `addFlagToUsername` invocation. -/
inductive FlagAction
| setState (v : String)
| addInflight (h : String)
| removeInflight (h : String)
| insertShimmer
| removeShimmer
| awaitLookup (h : String)
| insertFlag (g : String)
| redriveWaiting (h : String)
| sleep500
deriving DecidableEq

/-- The `try` body of `addFlagToUsername` after `await getUserLocation`
resolves (`outcome = .ok v`) or rejects (`outcome = .error ()`): shimmer
removal, then the no-location / no-flag / existing-flag / insertion cases.
`cf` is whether `userNameContainer` was found before the await, `cf2` whether
the fallback re-query for `containerForFlag` finds one afterwards, and `hef`
whether the element already holds a `[data-twitter-flag]` child.  (In the
source, each of the three insertion-position fallbacks sets `inserted = true`,
so the insertion branch always ends in state `'true'` plus the re-drive of
`waiting` elements.) -/
def addFlagTryBody (hn : String) (cf cf2 : Bool) (outcome : Except Unit (Option String))
    (hef : Bool) : List FlagAction :=
  match outcome with
  | .error _ => (if cf then [.removeShimmer] else []) ++ [.setState "failed"]
  | .ok v =>
      (if cf then [.removeShimmer] else []) ++
      match v with
      | none => [.setState "failed"]
      | some loc =>
          match getCountryFlag loc with
          | none => [.setState "failed"]
          | some g =>
              if hef then [.setState "true"]
              else if cf || cf2 then [.insertFlag g, .setState "true", .redriveWaiting hn]
              else [.setState "failed"]

/-- The full action trace of one `addFlagToUsername(element, hn)` invocation.
`st`: the element's `data-flag-added` was `'true'` at entry; `infl`: `hn` was
in `processingUsernames` at entry; `sta`: the element's `data-flag-added` read
`'true'` again after the duplicate branch's 500 ms sleep.  On the main path
the handle is added to the in-flight set before the lookup is awaited, and the
`finally` clause removes it as the last action. -/
def addFlagRun (hn : String) (st infl sta cf cf2 : Bool)
    (outcome : Except Unit (Option String)) (hef : Bool) : List FlagAction :=
  if st then []
  else if infl then .sleep500 :: (if sta then [] else [.setState "waiting"])
  else
    .setState "processing" :: .addInflight hn ::
      ((if cf then [.insertShimmer] else []) ++
        (.awaitLookup hn :: (addFlagTryBody hn cf cf2 outcome hef ++ [.removeInflight hn])))

/-- The last `data-flag-added` value written by a trace. -/
def lastSetState (tr : List FlagAction) : Option String :=
  (tr.filterMap (fun a => match a with | .setState v => some v | _ => none)).getLast?

/-! ### Concurrent annotation system (for the duplicate-element scenario)

A small scheduler over suspended `addFlagToUsername` invocations.  Each task
is one invocation of the procedure for a DOM element; its phase records the
`await` at which it is suspended.  Steps correspond to the synchronous
segments of the source between suspension points. -/

/-- Suspension points of `addFlagToUsername`. -/
inductive AnnPhase
| start
| sleepingDup
| awaitingNet
deriving DecidableEq

/-- A suspended invocation: target element id, its handle, and the phase. -/
structure AnnTask where
  elem : Nat
  handle : String
  phase : AnnPhase
deriving DecidableEq

/-- A username-bearing DOM element: id, extracted handle, and the
`data-flag-added` attribute. -/
structure DomElem where
  id : Nat
  handle : String
  state : Option String
deriving DecidableEq

/-- System state: the document's elements, `processingUsernames`, the pending
invocations, and the number of `getUserLocation` awaits entered (each one, on
a cold cache, issues exactly one queued bridge request). -/
structure AnnState where
  elems : List DomElem
  inflight : List String
  tasks : List AnnTask
  lookups : Nat
deriving DecidableEq

/-- Read an element's `data-flag-added`. -/
def stateOf (es : List DomElem) (i : Nat) : Option String :=
  match es.find? (fun e => e.id == i) with
  | some e => e.state
  | none => none

/-- Write an element's `data-flag-added`. -/
def setElemState (es : List DomElem) (i : Nat) (v : Option String) : List DomElem :=
  es.map (fun e => if e.id == i then { e with state := v } else e)

/-- Scheduler choices: run one scan pass (`processUsernames`), or advance the
`i`-th suspended task, supplying the environment of its next synchronous
segment (`outcome` of the awaited lookup, whether a `[data-twitter-flag]`
child already exists, whether the flag container is found). -/
inductive AnnChoice
| scan
| runTask (i : Nat) (outcome : Except Unit (Option String)) (hef cf : Bool)

/-- One step of the annotation system.  The completion segment mirrors the
source order: the element's final state is written and the `waiting` elements
for the handle are re-driven *synchronously* — each re-driven call checks
`processingUsernames` while the handle is still in flight (the `finally`
deletion has not run yet) and therefore suspends in the duplicate branch —
and only then does the `finally` clause remove the handle. -/
def stepAnn (s : AnnState) (c : AnnChoice) : Option AnnState :=
  match c with
  | .scan =>
      some { s with
        tasks := s.tasks ++
          (s.elems.filter (fun e => scanEligible e.state)).map
            (fun e => { elem := e.id, handle := e.handle, phase := .start }) }
  | .runTask i outcome hef cf =>
      match s.tasks.get? i with
      | none => none
      | some t =>
          let rest := s.tasks.eraseIdx i
          match t.phase with
          | .start =>
              if stateOf s.elems t.elem = some "true" then some { s with tasks := rest }
              else if t.handle ∈ s.inflight then
                some { s with tasks := rest ++ [{ t with phase := .sleepingDup }] }
              else
                some { s with
                  elems := setElemState s.elems t.elem (some "processing"),
                  inflight := t.handle :: s.inflight,
                  tasks := rest ++ [{ t with phase := .awaitingNet }],
                  lookups := s.lookups + 1 }
          | .sleepingDup =>
              if stateOf s.elems t.elem = some "true" then some { s with tasks := rest }
              else some { s with elems := setElemState s.elems t.elem (some "waiting"),
                                 tasks := rest }
          | .awaitingNet =>
              let res : String × Bool :=
                match outcome with
                | .error _ => ("failed", false)
                | .ok none => ("failed", false)
                | .ok (some loc) =>
                    match getCountryFlag loc with
                    | none => ("failed", false)
                    | some _ =>
                        if hef then ("true", false)
                        else if cf then ("true", true)
                        else ("failed", false)
              let elems' := setElemState s.elems t.elem (some res.1)
              let spawned :=
                if res.2 then
                  (elems'.filter (fun e => e.state == some "waiting" && e.handle == t.handle)).map
                    (fun e => ({ elem := e.id, handle := t.handle, phase := .sleepingDup } : AnnTask))
                else []
              some { s with elems := elems', inflight := s.inflight.erase t.handle,
                            tasks := rest ++ spawned }

/-- Run a schedule of choices. -/
def runAnn (s : AnnState) : List AnnChoice → Option AnnState
  | [] => some s
  | c :: cs =>
      match stepAnn s c with
      | some s' => runAnn s' cs
      | none => none

/-- Two elements for the same never-seen handle appearing in one scan batch. -/
def annScenarioInit : AnnState :=
  { elems := [{ id := 1, handle := "alice", state := none },
              { id := 2, handle := "alice", state := none }],
    inflight := [], tasks := [], lookups := 0 }

/-- The realistic schedule: scan both elements; the first invocation enters
processing and awaits the network; the second sees the handle in flight,
sleeps, and marks itself `waiting`; the request resolves with a mappable
location, re-driving the waiting element; the re-driven invocation then
resumes after its own 500 ms sleep. -/
def annScenarioSched : List AnnChoice :=
  [AnnChoice.scan,
   AnnChoice.runTask 0 (.ok none) false true,
   AnnChoice.runTask 0 (.ok none) false true,
   AnnChoice.runTask 1 (.ok none) false true,
   AnnChoice.runTask 0 (.ok (some "Paris, France")) false true,
   AnnChoice.runTask 0 (.ok none) false true]

/-- The resulting state of the scenario. -/
def annScenarioFinal : AnnState :=
  { elems := [{ id := 1, handle := "alice", state := some "true" },
              { id := 2, handle := "alice", state := some "waiting" }],
    inflight := [], tasks := [], lookups := 1 }

/-! ### Toggle handling (`runtime.onMessage` listener, `removeAllFlags`) -/

/-- A document element as relevant to `removeAllFlags`: whether it carries the
`data-twitter-flag` / `data-twitter-flag-shimmer` marker attributes, its
`data-flag-added` value, and an abstract payload standing for all its other
content. -/
structure PageElem where
  twitterFlag : Bool
  twitterFlagShimmer : Bool
  flagAdded : Option String
  payload : Nat
deriving DecidableEq

/-- `removeAllFlags`: remove every `[data-twitter-flag]` element, remove every
`[data-twitter-flag-shimmer]` element, then delete `data-flag-added` on every
remaining element that carries it. -/
def removeAllFlags (doc : List PageElem) : List PageElem :=
  ((doc.filter (fun e => !e.twitterFlag)).filter (fun e => !e.twitterFlagShimmer)).map
    (fun e => { e with flagAdded := none })

/-- The process-wide state touched (or not) by the message listener. -/
structure ContentState where
  doc : List PageElem
  locationCache : List (String × Option String)
  processingUsernames : List String
  requestQueue : List String
  extensionEnabled : Bool
  pendingScan : Bool
deriving DecidableEq

/-- An inbound runtime message `{type, enabled}`. -/
structure ToggleMsg where
  type : String
  enabled : Bool

/-- The `runtime.onMessage` listener: on `extensionToggle`, record the new
enabled state and either schedule a re-scan (`setTimeout(processUsernames,
500)`, modelled as `pendingScan`) or call `removeAllFlags`. -/
def onMessage (req : ToggleMsg) (s : ContentState) : ContentState :=
  if req.type == "extensionToggle" then
    if req.enabled then { s with extensionEnabled := true, pendingScan := true }
    else { s with extensionEnabled := false, doc := removeAllFlags s.doc }
  else s

/-! ### Invariant of the queue system and concrete witness data -/

/-- Invariant of the queue transition system: bounded concurrency, monotone
clock versus `lastRequestTime`, a sleeping loop holds a concurrency slot and
wakes exactly `MIN_REQUEST_INTERVAL` after the last dispatch,
`lastRequestTime` is the last dispatch time, and dispatch times are spaced by
at least `MIN_REQUEST_INTERVAL`. -/
def QInv (s : QState) : Prop :=
  s.activeRequests ≤ MAX_CONCURRENT_REQUESTS ∧
  s.lastRequestTime ≤ s.time ∧
  (∀ w, s.loop = .sleeping w →
     s.activeRequests < MAX_CONCURRENT_REQUESTS ∧
     w = s.lastRequestTime + MIN_REQUEST_INTERVAL) ∧
  s.lastRequestTime = s.dispatches.getLastD 0 ∧
  s.dispatches.Chain' (fun a b => a + MIN_REQUEST_INTERVAL ≤ b)

/-- A concrete queue trace: one request arrives at time 0, the loop sleeps out
the minimum interval, dispatches at 2000 ms, exits, and the request completes. -/
def c1Events : List QEvent :=
  [.enqueue 0 "alice", .iter 0, .wake 2000, .iter 2000, .complete 2300]

/-- The state reached by `c1Events`. -/
def c1Final : QState :=
  { queue := [], loop := .idle, lastRequestTime := 2000, activeRequests := 0,
    rateLimitResetTime := 0, time := 2300, dispatches := [2000] }

/-- A correlated response that is rate-limited yet carries a location. -/
def rateLimitedLocMsg : PageMsg :=
  { sourceIsWindow := true, type := "__locationResponse", screenName := "alice",
    requestId := 7, location := some "Paris, France", isRateLimited := true, time := 100 }

/-- A correlated response that is rate-limited and carries no location. -/
def rateLimitedNullMsg : PageMsg :=
  { sourceIsWindow := true, type := "__locationResponse", screenName := "alice",
    requestId := 7, location := none, isRateLimited := true, time := 100 }

/-- A concrete document with a flag element, a shimmer element, and a plain
annotated element. -/
def toggleDoc : List PageElem :=
  [{ twitterFlag := true, twitterFlagShimmer := false, flagAdded := none, payload := 10 },
   { twitterFlag := false, twitterFlagShimmer := true, flagAdded := none, payload := 11 },
   { twitterFlag := false, twitterFlagShimmer := false, flagAdded := some "true", payload := 12 }]

/-- A concrete content-script state before a toggle-off message. -/
def toggleState : ContentState :=
  { doc := toggleDoc, locationCache := [("alice", some "Paris, France")],
    processingUsernames := ["bob"], requestQueue := ["carol"],
    extensionEnabled := true, pendingScan := false }

/-! ### Cache lemmas -/

/-- Unfolding lemma: lookup on a cons. -/
theorem getEntry_cons {α : Type} (q : String × α) (l : List (String × α)) (k : String) :
    getEntry (q :: l) k = if q.1 == k then some q.2 else getEntry l k := by
  rw [getEntry, List.find?_cons]
  by_cases h : (q.1 == k) = true <;> simp [h, getEntry]

/-- Unfolding lemma: `loadCache` on a cons. -/
theorem loadCache_cons (q : String × CacheEntry) (stored : List (String × CacheEntry)) (now : Nat) :
    loadCache (q :: stored) now =
      (if now < q.2.expiry ∧ q.2.location ≠ none then [(q.1, q.2.location)] else []) ++
        loadCache stored now := by
  rw [loadCache, loadCache, List.filterMap_cons]
  by_cases h : now < q.2.expiry ∧ q.2.location ≠ none <;> simp [h]

/-- `saveCache` maps lookups: the persisted object binds exactly the keys of
the in-memory map, each to a record whose `expiry` and `cachedAt` are computed
from the time of the save. -/
theorem getEntry_saveCache (cache : List (String × Option String)) (now : Nat) (sn : String) :
    getEntry (saveCache cache now) sn =
      (getEntry cache sn).map
        (fun loc => { location := loc,
                      expiry := now + CACHE_EXPIRY_DAYS * 24 * 60 * 60 * 1000,
                      cachedAt := now }) := by
  induction cache with
  | nil => rfl
  | cons p t ih =>
    by_cases h : (p.1 == sn) = true
    · rw [saveCache, List.map_cons, getEntry_cons, getEntry_cons, if_pos h, if_pos h]
      rfl
    · rw [saveCache, List.map_cons, getEntry_cons, getEntry_cons, if_neg h, if_neg h]
      exact ih

/-- If every binding of `sn` in the snapshot has a null location, `loadCache`
produces no binding for `sn`. -/
theorem getEntry_loadCache_none (stored : List (String × CacheEntry)) (t : Nat) (sn : String)
    (h : ∀ e, (sn, e) ∈ stored → e.location = none) :
    getEntry (loadCache stored t) sn = none := by
  induction stored with
  | nil => rfl
  | cons p rest ih =>
    have hrest : ∀ e, (sn, e) ∈ rest → e.location = none :=
      fun e he => h e (List.mem_cons_of_mem _ he)
    rw [loadCache_cons]
    by_cases hc : t < p.2.expiry ∧ p.2.location ≠ none
    · by_cases hk : p.1 = sn
      · exfalso
        exact hc.2 (h p.2 (by rw [← hk]; exact List.mem_cons_self _ _))
      · rw [if_pos hc, List.singleton_append, getEntry_cons, if_neg (by simpa using hk)]
        exact ih hrest
    · rw [if_neg hc, List.nil_append]
      exact ih hrest

/-- With unique keys, any binding present in the list is the one `getEntry`
returns. -/
theorem getEntry_of_mem {α : Type} (l : List (String × α)) (k : String) (a : α)
    (hnd : (l.map Prod.fst).Nodup) (h : (k, a) ∈ l) : getEntry l k = some a := by
  induction l with
  | nil => cases h
  | cons p rest ih =>
    rcases List.mem_cons.mp h with h1 | h1
    · rw [← h1, getEntry_cons, if_pos (by simp)]
    · have hmem : k ∈ rest.map Prod.fst := List.mem_map.mpr ⟨(k, a), h1, rfl⟩
      rw [List.map_cons, List.nodup_cons] at hnd
      have hk : p.1 ≠ k := fun hkk => hnd.1 (hkk.symm ▸ hmem)
      rw [getEntry_cons, if_neg (by simpa using hk)]
      exact ih hnd.2 h1

/-- A non-expired, non-null persisted binding survives `loadCache` with its
location intact. -/
theorem getEntry_loadCache_some (stored : List (String × CacheEntry)) (now : Nat) (sn : String)
    (e : CacheEntry) (h : getEntry stored sn = some e) (hexp : now < e.expiry)
    (hloc : e.location ≠ none) :
    getEntry (loadCache stored now) sn = some e.location := by
  induction stored with
  | nil => cases h
  | cons p rest ih =>
    rw [loadCache_cons]
    by_cases hk : (p.1 == sn) = true
    · rw [getEntry_cons, if_pos hk] at h
      have hpe : p.2 = e := by simpa using h
      have hcond : now < p.2.expiry ∧ p.2.location ≠ none := by
        rw [hpe]; exact ⟨hexp, hloc⟩
      rw [if_pos hcond, List.singleton_append, getEntry_cons, if_pos hk, hpe]
    · rw [getEntry_cons, if_neg hk] at h
      by_cases hc : now < p.2.expiry ∧ p.2.location ≠ none
      · rw [if_pos hc, List.singleton_append, getEntry_cons, if_neg hk]
        exact ih h
      · rw [if_neg hc, List.nil_append]
        exact ih h

/-! ### Claims C3, C4, C5, C10 -/

/-- Claim C10: every persisted snapshot rewrites `expiry` and `cachedAt` for
all in-memory entries using the time of the save: the object written by
`saveCache` at time `now` binds exactly the in-memory handles, each to a
record with `expiry = now + 30 days` and `cachedAt = now`, regardless of when
the entry was first resolved.  (The periodic 30-second flush calls `saveCache`
with a fresh `Date.now()`, hence renews every entry's expiry.) -/
theorem saveCache_rewrites_timestamps (cache : List (String × Option String)) (now : Nat)
    (sn : String) :
    getEntry (saveCache cache now) sn =
      (getEntry cache sn).map
        (fun loc => { location := loc,
                      expiry := now + CACHE_EXPIRY_DAYS * 24 * 60 * 60 * 1000,
                      cachedAt := now }) :=
  getEntry_saveCache cache now sn

/-- Claim C3 counterexample: an in-memory cache holding a null location for
`alice` produces a persisted object that DOES contain an entry for `alice`
(with `location` null) — `saveCache` has no null filter, contradicting the
claim that the persisted object contains no entry for such a handle. -/
theorem saveCache_persists_null_counterexample :
    getEntry (saveCache [("alice", none)] 1000) "alice" =
      some { location := none, expiry := 1000 + CACHE_EXPIRY_DAYS * 24 * 60 * 60 * 1000,
             cachedAt := 1000 } ∧
    getEntry (saveCache [("alice", none)] 1000) "alice" ≠ none := by
  constructor
  · rfl
  · decide

/-- Claim C3 (amended): a handle with a null location recorded in the
in-memory cache IS written to the persisted snapshot (as a record with null
`location`), but `loadCache` drops null-location entries, so the handle is
absent from the in-memory cache next session. -/
theorem null_entry_absent_next_session (cache : List (String × Option String)) (now t : Nat)
    (sn : String) (hnd : (cache.map Prod.fst).Nodup) (h : getEntry cache sn = some none) :
    getEntry (saveCache cache now) sn =
      some { location := none, expiry := now + CACHE_EXPIRY_DAYS * 24 * 60 * 60 * 1000,
             cachedAt := now } ∧
    getEntry (loadCache (saveCache cache now) t) sn = none := by
  constructor
  · rw [getEntry_saveCache, h]
    rfl
  · apply getEntry_loadCache_none
    intro e he
    rcases List.mem_map.mp he with ⟨p, hp, hfp⟩
    have h1 : p.1 = sn := congrArg Prod.fst hfp
    have h2 : e.location = p.2 := by
      have := congrArg Prod.snd hfp
      simp at this
      rw [← this]
    have h3 : getEntry cache sn = some p.2 :=
      getEntry_of_mem cache sn p.2 hnd (by rw [← h1]; exact hp)
    rw [h] at h3
    rw [h2]
    exact (Option.some.inj h3).symm

/-- Witness for `null_entry_absent_next_session` at a concrete cache. -/
theorem null_entry_absent_next_session_witness :
    getEntry (saveCache [("alice", none)] 5) "alice" =
      some { location := none, expiry := 5 + CACHE_EXPIRY_DAYS * 24 * 60 * 60 * 1000,
             cachedAt := 5 } ∧
    getEntry (loadCache (saveCache [("alice", none)] 5) 9) "alice" = none :=
  null_entry_absent_next_session [("alice", none)] 5 9 "alice" (by decide) (by decide)

/-- Claim C4 counterexample: after a null location is stored for `alice`, the
very next lookup does NOT return without a network request — it deletes the
null entry and falls through to enqueueing a fresh request (`requested`). -/
theorem cached_null_refetch_counterexample :
    (getUserLocation (cacheSet [] "alice" none) "alice").1 = LookupResult.requested ∧
    getEntry (getUserLocation (cacheSet [] "alice" none) "alice").2 "alice" = none := by
  constructor
  · rfl
  · rfl

/-- Claim C4 (amended): a cached null does not suppress re-fetching: the next
`getUserLocation` for the handle deletes the null entry and enqueues a new
network request. -/
theorem cached_null_triggers_refetch (cache : List (String × Option String)) (sn : String)
    (h : getEntry cache sn = some none) :
    getUserLocation cache sn = (LookupResult.requested, cacheDelete cache sn) := by
  rw [getUserLocation, h]

/-- Witness for `cached_null_triggers_refetch` at a concrete cache. -/
theorem cached_null_triggers_refetch_witness :
    getUserLocation [("alice", none)] "alice" =
      (LookupResult.requested, cacheDelete [("alice", none)] "alice") :=
  cached_null_triggers_refetch [("alice", none)] "alice" (by decide)

/-- Claim C5: if the cache holds a non-expired, non-null persisted entry for a
handle at load time, then the lookup returns that cached location unchanged
and no request is pushed onto the queue (the `requested` branch, which is the
only place a request is created, is not taken). -/
theorem cache_hit_no_request (stored : List (String × CacheEntry)) (now : Nat) (sn : String)
    (e : CacheEntry) (loc : String) (h1 : getEntry stored sn = some e)
    (h2 : e.location = some loc) (h3 : now < e.expiry) :
    getUserLocation (loadCache stored now) sn = (.cached loc, loadCache stored now) := by
  have hload := getEntry_loadCache_some stored now sn e h1 h3 (by rw [h2]; exact fun hc => by cases hc)
  rw [h2] at hload
  rw [getUserLocation, hload]

/-- Witness for `cache_hit_no_request` at a concrete snapshot. -/
theorem cache_hit_no_request_witness :
    getUserLocation
        (loadCache [("alice", { location := some "Paris, France", expiry := 10, cachedAt := 0 })] 3)
        "alice" =
      (.cached "Paris, France",
       loadCache [("alice", { location := some "Paris, France", expiry := 10, cachedAt := 0 })] 3) :=
  cache_hit_no_request [("alice", { location := some "Paris, France", expiry := 10, cachedAt := 0 })]
    3 "alice" { location := some "Paris, France", expiry := 10, cachedAt := 0 } "Paris, France"
    (by decide) (by decide) (by decide)

/-! ### Claim C9: toggle-off -/

/-- Claim C9: on a toggle-off message every element carrying a
`data-twitter-flag` or `data-twitter-flag-shimmer` marker is removed from the
document and every `data-flag-added` attribute is cleared, while the other
elements are kept in order with their payload intact; the in-memory location
cache, the in-flight handle set and the pending request queue are not
modified. -/
theorem toggle_off_strips_decorations_only (s : ContentState) :
    (onMessage { type := "extensionToggle", enabled := false } s).locationCache =
      s.locationCache ∧
    (onMessage { type := "extensionToggle", enabled := false } s).processingUsernames =
      s.processingUsernames ∧
    (onMessage { type := "extensionToggle", enabled := false } s).requestQueue =
      s.requestQueue ∧
    (onMessage { type := "extensionToggle", enabled := false } s).doc =
      (s.doc.filter (fun e => !(e.twitterFlag || e.twitterFlagShimmer))).map
        (fun e => { e with flagAdded := none }) ∧
    ∀ e ∈ (onMessage { type := "extensionToggle", enabled := false } s).doc,
      e.twitterFlag = false ∧ e.twitterFlagShimmer = false ∧ e.flagAdded = none := by
  refine ⟨rfl, rfl, rfl, ?_, ?_⟩
  · show removeAllFlags s.doc = _
    rw [removeAllFlags, List.filter_filter]
    congr 1
    apply List.filter_congr
    intro e _
    cases he1 : e.twitterFlag <;> cases he2 : e.twitterFlagShimmer <;> simp [he1, he2]
  · intro e he
    show _ ∧ _ ∧ _
    have he' : e ∈ removeAllFlags s.doc := he
    rw [removeAllFlags] at he'
    rcases List.mem_map.mp he' with ⟨x, hx, hxe⟩
    have hx1 := List.of_mem_filter hx
    have hx2 := List.of_mem_filter (List.mem_of_mem_filter hx)
    rw [← hxe]
    simp only [Bool.not_eq_true'] at hx1 hx2
    exact ⟨hx2, hx1, rfl⟩

/-- Witness for `toggle_off_strips_decorations_only` on a concrete document. -/
theorem toggle_off_strips_decorations_only_witness :
    (onMessage { type := "extensionToggle", enabled := false } toggleState).doc =
      (toggleState.doc.filter (fun e => !(e.twitterFlag || e.twitterFlagShimmer))).map
        (fun e => { e with flagAdded := none }) ∧
    (onMessage { type := "extensionToggle", enabled := false } toggleState).locationCache =
      toggleState.locationCache :=
  ⟨(toggle_off_strips_decorations_only toggleState).2.2.2.1,
   (toggle_off_strips_decorations_only toggleState).1⟩

/-! ### Claim C8: the bridge promise always resolves -/

/-- Claim C8: every `makeLocationRequest` promise resolves: the executor's
settle calls never include a rejection, the promise always settles (the
10-second timeout unconditionally calls `resolve(null)`), and when no
correlated response arrives before the timeout the promise resolves with
null. -/
theorem bridge_always_resolves (sn : String) (rid : Nat) (evs : List PageMsg) :
    (∃ v, promiseSettle sn rid evs = some (Settle.resolve v)) ∧
    Settle.reject ∉ settleCalls sn rid evs ∧
    (firstResponse sn rid evs = none →
      promiseSettle sn rid evs = some (Settle.resolve none)) := by
  rcases h : firstResponse sn rid evs with _ | m
  · exact ⟨⟨none, by simp [promiseSettle, settleCalls, h]⟩,
      by simp [settleCalls, h],
      fun _ => by simp [promiseSettle, settleCalls, h]⟩
  · refine ⟨⟨orNull m.location, by simp [promiseSettle, settleCalls, h]⟩,
      by simp [settleCalls, h],
      fun hc => by cases hc⟩

/-- Witness for `bridge_always_resolves`: no event at all arrives, and the
implication's premise is discharged concretely. -/
theorem bridge_always_resolves_witness :
    promiseSettle "alice" 7 [] = some (Settle.resolve none) ∧
    Settle.reject ∉ settleCalls "alice" 7 [] :=
  ⟨(bridge_always_resolves "alice" 7 []).2.2 (by decide),
   (bridge_always_resolves "alice" 7 []).2.1⟩

/-! ### Claim C6: rate-limited responses -/

/-- Claim C6 counterexample: a correlated response flagged `isRateLimited`
that nevertheless carries a location writes no cache entry (as claimed), but
the awaiting element does NOT end in `failed` state: the promise resolves
with the location, the flag glyph is found and inserted, and the element ends
in state `true`. -/
theorem rate_limited_decorated_counterexample :
    cacheWrites "alice" 7 [rateLimitedLocMsg] = [] ∧
    promiseSettle "alice" 7 [rateLimitedLocMsg] =
      some (Settle.resolve (some "Paris, France")) ∧
    lastSetState
        (addFlagRun "alice" false false false true true (.ok (some "Paris, France")) false) =
      some "true" ∧
    (some "true" : Option String) ≠ some "failed" := by
  refine ⟨by decide, by decide, by decide, by decide⟩

/-- Claim C6 (amended): for every correlated response flagged `isRateLimited`,
no cache entry is written (neither the in-memory `saveCacheEntry` update nor
the persisted snapshot it schedules); whenever such a response carries no (or
an empty) location — the shape documented in the spec's scenario — the
promise resolves null and the awaiting element ends in `failed` state, which
the scan pass treats as eligible for retry. -/
theorem rate_limited_not_cached (sn : String) (rid : Nat) (evs : List PageMsg) (m : PageMsg)
    (cf cf2 hef : Bool) (h1 : firstResponse sn rid evs = some m)
    (h2 : m.isRateLimited = true) (h3 : orNull m.location = none) :
    cacheWrites sn rid evs = [] ∧
    promiseSettle sn rid evs = some (Settle.resolve none) ∧
    lastSetState (addFlagRun sn false false false cf cf2 (.ok (orNull m.location)) hef) =
      some "failed" ∧
    scanEligible (some "failed") = true := by
  refine ⟨?_, ?_, ?_, by decide⟩
  · simp [cacheWrites, h1, h2]
  · simp [promiseSettle, settleCalls, h1, h3]
  · rw [h3]
    cases cf <;> rfl

/-- Witness for `rate_limited_not_cached`: the concrete rate-limited response
without a location. -/
theorem rate_limited_not_cached_witness :
    cacheWrites "alice" 7 [rateLimitedNullMsg] = [] ∧
    promiseSettle "alice" 7 [rateLimitedNullMsg] = some (Settle.resolve none) ∧
    lastSetState
        (addFlagRun "alice" false false false true true
          (.ok (orNull rateLimitedNullMsg.location)) false) =
      some "failed" ∧
    scanEligible (some "failed") = true :=
  rate_limited_not_cached "alice" 7 [rateLimitedNullMsg] rateLimitedNullMsg true true false
    (by decide) (by decide) (by decide)

/-! ### Claim C2: duplicate elements end up stuck in `waiting` -/

/-- Claim C2 (code bug): two elements for the same never-seen handle are
scanned in one batch.  The first enters `processing` (only one element is
ever in `processing` for the handle); the second transitions to `waiting`.
When the in-flight request completes, the source re-drives the `waiting`
elements *before* the `finally` clause removes the handle from
`processingUsernames`, so the re-driven invocation takes the duplicate branch
and merely re-marks the element `waiting`.  The run ends with element 2 still
`waiting`, no pending task left to resolve it, only one `getUserLocation`
lookup ever issued, and `waiting` not eligible for any later scan pass — the
element is never resolved, contradicting the claim. -/
theorem waiting_elements_never_resolved :
    runAnn annScenarioInit annScenarioSched = some annScenarioFinal ∧
    stateOf annScenarioFinal.elems 2 = some "waiting" ∧
    annScenarioFinal.tasks = [] ∧
    annScenarioFinal.lookups = 1 ∧
    scanEligible (some "waiting") = false := by
  refine ⟨by decide, by decide, by decide, by decide, by decide⟩

/-! ### Claim C7: in-flight set discipline of `addFlagToUsername` -/

/-- Claim C7: in every execution of `addFlagToUsername`, whenever the handle
is added to the in-flight set the trace also awaits the lookup and ends with
the `finally` removal of the handle (so no completion path — success,
no-location, no-flag, or thrown error — leaves the handle in-flight); and
whenever the lookup is awaited, the trace starts by setting `processing` and
adding the handle to the in-flight set *before* the await. -/
theorem addFlag_inflight_discipline (hn : String) (st infl sta cf cf2 hef : Bool)
    (outcome : Except Unit (Option String)) :
    (FlagAction.addInflight hn ∈ addFlagRun hn st infl sta cf cf2 outcome hef →
       FlagAction.awaitLookup hn ∈ addFlagRun hn st infl sta cf cf2 outcome hef ∧
       (addFlagRun hn st infl sta cf cf2 outcome hef).getLast? =
         some (FlagAction.removeInflight hn)) ∧
    (FlagAction.awaitLookup hn ∈ addFlagRun hn st infl sta cf cf2 outcome hef →
       ∃ pre post, addFlagRun hn st infl sta cf cf2 outcome hef =
         FlagAction.setState "processing" :: FlagAction.addInflight hn ::
           (pre ++ FlagAction.awaitLookup hn :: (post ++ [FlagAction.removeInflight hn]))) := by
  cases st with
  | true => constructor <;> (intro hm; simp [addFlagRun] at hm)
  | false =>
    cases infl with
    | true => cases sta <;> (constructor <;> (intro hm; simp [addFlagRun] at hm))
    | false =>
      constructor
      · intro _
        constructor
        · simp [addFlagRun]
        · have hshape : addFlagRun hn false false sta cf cf2 outcome hef =
              (FlagAction.setState "processing" :: FlagAction.addInflight hn ::
                ((if cf then [FlagAction.insertShimmer] else []) ++
                  FlagAction.awaitLookup hn :: addFlagTryBody hn cf cf2 outcome hef)) ++
                [FlagAction.removeInflight hn] := by
            simp [addFlagRun]
          rw [hshape, List.getLast?_concat]
      · intro _
        exact ⟨(if cf then [FlagAction.insertShimmer] else []),
               addFlagTryBody hn cf cf2 outcome hef, rfl⟩

/-- Witness for `addFlag_inflight_discipline` at a concrete run, with the
implications discharged by evaluating the trace. -/
theorem addFlag_inflight_discipline_witness :
    ((addFlagRun "alice" false false false true true (.ok (some "Paris, France")) false).getLast? =
       some (FlagAction.removeInflight "alice")) ∧
    (∃ pre post,
       addFlagRun "alice" false false false true true (.ok (some "Paris, France")) false =
         FlagAction.setState "processing" :: FlagAction.addInflight "alice" ::
           (pre ++ FlagAction.awaitLookup "alice" ::
             (post ++ [FlagAction.removeInflight "alice"]))) :=
  ⟨((addFlag_inflight_discipline "alice" false false false true true false
      (.ok (some "Paris, France"))).1 (by decide)).2,
   (addFlag_inflight_discipline "alice" false false false true true false
      (.ok (some "Paris, France"))).2 (by decide)⟩

/-! ### Claim C1: queue concurrency bound and dispatch spacing -/

/-- Appending a dispatch time at least `MIN_REQUEST_INTERVAL` after the last
one preserves the spacing chain. -/
theorem chain'_snoc_dispatch (l : List Nat) (a : Nat)
    (hl : l.Chain' (fun x y => x + MIN_REQUEST_INTERVAL ≤ y))
    (ha : l.getLastD 0 + MIN_REQUEST_INTERVAL ≤ a) :
    (l ++ [a]).Chain' (fun x y => x + MIN_REQUEST_INTERVAL ≤ y) := by
  rw [List.chain'_append]
  refine ⟨hl, List.chain'_singleton _, ?_⟩
  intro x hx y hy
  have hxa : l.getLastD 0 = x := by
    rw [List.getLastD_eq_getLast?, hx]
    rfl
  have hya : a = y := by simpa using hy
  rw [← hya, ← hxa]
  exact ha

/-- The invariant ignores the pending queue and the rate-limit window, so it
transfers across steps that only touch those fields and the clock. -/
theorem QInv_timeShift (s : QState) (t : Nat) (hs : QInv s) (ht : s.time ≤ t) :
    QInv { s with time := t } := by
  obtain ⟨h1, h2, h3, h4, h5⟩ := hs
  exact ⟨h1, le_trans h2 ht, h3, h4, h5⟩

/-- `tryStart` preserves the invariant: it only moves the loop from `idle` to
`running` (and possibly clears an expired rate-limit window). -/
theorem QInv_tryStart (s : QState) (hs : QInv s) : QInv (tryStart s) := by
  obtain ⟨h1, h2, h3, h4, h5⟩ := hs
  rw [tryStart]
  split
  · exact ⟨h1, h2, h3, h4, h5⟩
  · split
    · split
      · exact ⟨h1, h2, h3, h4, h5⟩
      · refine ⟨h1, h2, ?_, h4, h5⟩
        intro w hw
        exact LoopPhase.noConfusion
          (show LoopPhase.running = LoopPhase.sleeping w from hw)
    · refine ⟨h1, h2, ?_, h4, h5⟩
      intro w hw
      exact LoopPhase.noConfusion
        (show LoopPhase.running = LoopPhase.sleeping w from hw)

/-- `dispatchHead` preserves the invariant when a concurrency slot is free and
the minimum interval has elapsed since the last dispatch. -/
theorem QInv_dispatchHead (s : QState) (hs : QInv s)
    (hact : s.activeRequests < MAX_CONCURRENT_REQUESTS)
    (hgap : s.lastRequestTime + MIN_REQUEST_INTERVAL ≤ s.time) :
    QInv (dispatchHead s) := by
  obtain ⟨h1, h2, h3, h4, h5⟩ := hs
  refine ⟨hact, le_refl _, ?_, ?_, ?_⟩
  · intro w hw
    exact LoopPhase.noConfusion
      (show LoopPhase.running = LoopPhase.sleeping w from hw)
  · show s.time = (s.dispatches ++ [s.time]).getLastD 0
    rw [List.getLastD_concat]
  · exact chain'_snoc_dispatch s.dispatches s.time h5 (h4 ▸ hgap)

/-- One `while`-condition evaluation preserves the invariant. -/
theorem QInv_loopIter (s : QState) (hs : QInv s) : QInv (loopIter s) := by
  obtain ⟨h1, h2, h3, h4, h5⟩ := hs
  rw [loopIter]
  split
  · refine ⟨h1, h2, ?_, h4, h5⟩
    intro w hw
    exact LoopPhase.noConfusion
      (show LoopPhase.idle = LoopPhase.sleeping w from hw)
  · next hcond =>
    push_neg at hcond
    split
    · next hlt =>
      refine ⟨h1, h2, ?_, h4, h5⟩
      intro w hw
      have hww : LoopPhase.sleeping (s.time + (MIN_REQUEST_INTERVAL - (s.time - s.lastRequestTime))) =
          LoopPhase.sleeping w := hw
      rw [LoopPhase.sleeping.injEq] at hww
      refine ⟨hcond.2, ?_⟩
      show w = s.lastRequestTime + MIN_REQUEST_INTERVAL
      omega
    · next hge =>
      exact QInv_dispatchHead s ⟨h1, h2, h3, h4, h5⟩ hcond.2 (by omega)

/-- Every enabled step of the queue system preserves the invariant. -/
theorem stepQ_inv (s s' : QState) (e : QEvent) (hs : QInv s) (h : stepQ s e = some s') :
    QInv s' := by
  cases e with
  | enqueue t hd =>
    rw [stepQ] at h
    split at h
    · next ht =>
      injection h with h
      rw [← h]
      exact QInv_tryStart _ (QInv_timeShift { s with queue := s.queue ++ [hd] } t hs ht)
    · cases h
  | call t =>
    rw [stepQ] at h
    split at h
    · next ht =>
      injection h with h
      rw [← h]
      exact QInv_tryStart _ (QInv_timeShift s t hs ht)
    · cases h
  | iter t =>
    rw [stepQ] at h
    split at h
    · next ht =>
      injection h with h
      rw [← h]
      exact QInv_loopIter _ (QInv_timeShift s t hs ht.1)
    · cases h
  | wake t =>
    rw [stepQ] at h
    obtain ⟨h1, h2, h3, h4, h5⟩ := hs
    split at h
    · next w hl =>
      split at h
      · next hc =>
        injection h with h
        rw [← h]
        obtain ⟨hact, hw⟩ := h3 w hl
        refine QInv_dispatchHead { s with time := t }
          (QInv_timeShift s t ⟨h1, h2, h3, h4, h5⟩ hc.1) hact ?_
        show s.lastRequestTime + MIN_REQUEST_INTERVAL ≤ t
        omega
      · exact Option.noConfusion h
    · exact Option.noConfusion h
  | complete t =>
    rw [stepQ] at h
    split at h
    · next hc =>
      injection h with h
      rw [← h]
      obtain ⟨h1, h2, h3, h4, h5⟩ := hs
      refine ⟨le_trans (Nat.sub_le _ _) h1, le_trans h2 hc.1, ?_, h4, h5⟩
      intro w hw
      obtain ⟨hact, hww⟩ := h3 w hw
      exact ⟨lt_of_le_of_lt (Nat.sub_le _ _) hact, hww⟩
    · cases h
  | rateLimitSignal t r =>
    rw [stepQ] at h
    split at h
    · next ht =>
      injection h with h
      rw [← h]
      obtain ⟨h1, h2, h3, h4, h5⟩ := hs
      exact ⟨h1, le_trans h2 ht, h3, h4, h5⟩
    · cases h

/-- The invariant holds along every trace. -/
theorem runQ_inv (es : List QEvent) (s s' : QState) (h : runQ s es = some s') (hs : QInv s) :
    QInv s' := by
  induction es generalizing s with
  | nil =>
    rw [runQ] at h
    injection h with h
    rw [← h]
    exact hs
  | cons e es ih =>
    rw [runQ] at h
    cases hst : stepQ s e with
    | none => rw [hst] at h; cases h
    | some s1 =>
      rw [hst] at h
      exact ih s1 h (stepQ_inv s s1 e hs hst)

/-- The invariant holds initially. -/
theorem qInit_inv : QInv qInit := by
  refine ⟨by decide, le_refl 0, ?_, rfl, List.chain'_nil⟩
  intro w hw
  cases hw

/-- Claim C1: for every pattern of request arrivals (and timer/completion/
rate-limit interleavings), every reachable state of the queue system has at
most `MAX_CONCURRENT_REQUESTS` (2) requests in flight, and any two
consecutive dispatches through the Page Bridge are at least
`MIN_REQUEST_INTERVAL` (2000 ms) apart. -/
theorem processRequestQueue_rate_limit_invariant (es : List QEvent) (s : QState)
    (h : runQ qInit es = some s) :
    s.activeRequests ≤ MAX_CONCURRENT_REQUESTS ∧
    s.dispatches.Chain' (fun a b => a + MIN_REQUEST_INTERVAL ≤ b) := by
  have hinv := runQ_inv es qInit s h qInit_inv
  exact ⟨hinv.1, hinv.2.2.2.2⟩

/-- Witness for `processRequestQueue_rate_limit_invariant` on the concrete
trace `c1Events`, whose final state is `c1Final`. -/
theorem processRequestQueue_rate_limit_witness :
    c1Final.activeRequests ≤ MAX_CONCURRENT_REQUESTS ∧
    c1Final.dispatches.Chain' (fun a b => a + MIN_REQUEST_INTERVAL ≤ b) :=
  processRequestQueue_rate_limit_invariant c1Events c1Final (by decide)

end TwitterLocation
